import Mathlib

/-!
Verification of the Amazon price tracker ingestion pipeline.

Shallow embedding of the repository's Python modules:
  src/ingestion/validator/field_validators.py
  src/ingestion/validator.py
  src/ingestion/validator/business_rules.py
  src/ingestion/validator/sanitizers.py
  src/ingestion/validator/base_validator.py
  src/pipeline/transform.py
  src/ingestion/parser.py (extract_float_from_text)
  src/storage/duckdb_setup.py (update_product)
  src/ingestion/header.py
  src/ingestion/amazon_scraper.py (scrape_with_retry, scrape_multiple_products)

Strings are modelled as `String`/`List Char` with Python's character-level
semantics (slicing, strip, split, upper/lower restricted to ASCII letters,
which is the only data the pipeline produces).  Python floats are modelled
as exact rationals `ℚ`.  A Python value that may be a number or a string is
modelled by `PVal`; an absent-or-None dictionary entry is modelled by
`Option`, and where the distinction between a missing key and a `None`
value matters (base_validator.py) by `Dv`.  Code that can raise an uncaught
exception is modelled in `Except String`.
-/

/-! ## Python string primitives -/

/-- Python `str.strip()` from the left: drop leading whitespace. -/
def lstripList (l : List Char) : List Char := l.dropWhile Char.isWhitespace

/-- Python `str.strip()` from the right: drop trailing whitespace. -/
def rstripList (l : List Char) : List Char := (l.reverse.dropWhile Char.isWhitespace).reverse

/-- Python `str.strip()`: drop leading and trailing whitespace. -/
def stripList (l : List Char) : List Char := rstripList (lstripList l)

/-- Python `str.strip()` on `String`. -/
def pyStrip (s : String) : String := ⟨stripList s.data⟩

/-- ASCII model of Python `str.upper()` on one character (the pipeline's
identifiers are ASCII).  Written as an explicit table so its properties are
transparent. -/
def pyUpperChar (c : Char) : Char :=
  if c == 'a' then 'A' else if c == 'b' then 'B' else if c == 'c' then 'C'
  else if c == 'd' then 'D' else if c == 'e' then 'E' else if c == 'f' then 'F'
  else if c == 'g' then 'G' else if c == 'h' then 'H' else if c == 'i' then 'I'
  else if c == 'j' then 'J' else if c == 'k' then 'K' else if c == 'l' then 'L'
  else if c == 'm' then 'M' else if c == 'n' then 'N' else if c == 'o' then 'O'
  else if c == 'p' then 'P' else if c == 'q' then 'Q' else if c == 'r' then 'R'
  else if c == 's' then 'S' else if c == 't' then 'T' else if c == 'u' then 'U'
  else if c == 'v' then 'V' else if c == 'w' then 'W' else if c == 'x' then 'X'
  else if c == 'y' then 'Y' else if c == 'z' then 'Z' else c

/-- ASCII model of Python `str.lower()` on one character. -/
def pyLowerChar (c : Char) : Char :=
  if c == 'A' then 'a' else if c == 'B' then 'b' else if c == 'C' then 'c'
  else if c == 'D' then 'd' else if c == 'E' then 'e' else if c == 'F' then 'f'
  else if c == 'G' then 'g' else if c == 'H' then 'h' else if c == 'I' then 'i'
  else if c == 'J' then 'j' else if c == 'K' then 'k' else if c == 'L' then 'l'
  else if c == 'M' then 'm' else if c == 'N' then 'n' else if c == 'O' then 'o'
  else if c == 'P' then 'p' else if c == 'Q' then 'q' else if c == 'R' then 'r'
  else if c == 'S' then 's' else if c == 'T' then 't' else if c == 'U' then 'u'
  else if c == 'V' then 'v' else if c == 'W' then 'w' else if c == 'X' then 'x'
  else if c == 'Y' then 'y' else if c == 'Z' then 'z' else c

/-- Python `str.upper()`. -/
def pyUpper (s : String) : String := ⟨s.data.map pyUpperChar⟩

/-- Python `str.lower()`. -/
def pyLower (s : String) : String := ⟨s.data.map pyLowerChar⟩

/-- Python slicing `s[:n]`. -/
def pyTake (s : String) (n : Nat) : String := ⟨s.data.take n⟩

/-- Python `len(s)`. -/
def pyLen (s : String) : Nat := s.data.length

/-- Python substring test `needle in hay`. -/
def containsSub (hay needle : List Char) : Bool :=
  (List.range (hay.length + 1)).any (fun i => needle.isPrefixOf (hay.drop i))

/-- One character of the regex class `[A-Z0-9]`. -/
def asinChar (c : Char) : Bool := (('A' ≤ c) && (c ≤ 'Z')) || c.isDigit

/-- Python `re.match(r'^[A-Z0-9]{10}$', s) is not None`.  A Python `$` also
matches just before one trailing newline. -/
def reMatchAsin (l : List Char) : Bool :=
  (l.length == 10 && l.all asinChar) ||
    (l.length == 11 && l.getLast? == some '\n' && (l.take 10).all asinChar)

/-! ## Numeric primitives -/

/-- Numeric value of a list of decimal digits. -/
def digitsVal (l : List Char) : Nat :=
  l.foldl (fun a c => a * 10 + (c.toNat - 48)) 0

/-- Validity of a digits-and-dots character list as a Python decimal literal:
`float`/`Decimal` accept it iff every character is a digit or a dot, there
is at most one dot, and at least one digit (exponents, infinities and NaN
spellings never arise from the pipeline's digit/dot residues). -/
def decValid (l : List Char) : Bool :=
  l.all (fun c => c.isDigit || c == '.') && (l.count '.' ≤ 1 : Bool) && l.any Char.isDigit

/-- Exact rational value of a valid digits-and-dots decimal literal. -/
def decVal (l : List Char) : ℚ :=
  let ip := l.takeWhile (fun c => c ≠ '.')
  let fp := (l.dropWhile (fun c => c ≠ '.')).drop 1
  (digitsVal ip : ℚ) + (digitsVal fp : ℚ) / ((10 : ℚ) ^ fp.length)

/-- Model of Python `float(s)` for a string: strip whitespace, optional
sign, then a plain decimal literal.  (Exponent, `inf` and `nan` spellings
are not produced by this pipeline and are not modelled.) -/
def pyFloatStr (s : String) : Option ℚ :=
  let l := stripList s.data
  match l with
  | '+' :: t => if decValid t then some (decVal t) else none
  | '-' :: t => if decValid t then some (-(decVal t)) else none
  | t => if decValid t then some (decVal t) else none

/-- A Python value that is either a number or a string. -/
inductive PVal where
  | num (q : ℚ)
  | str (s : String)
deriving DecidableEq

/-- Python truthiness of a `PVal` (`0` and `""` are falsy). -/
def PVal.truthy : PVal → Bool
  | .num q => q ≠ 0
  | .str s => s ≠ ""

/-- Model of Python `float(v)`: identity on numbers, string parse on
strings; `none` models a raised `ValueError`/`TypeError`. -/
def pyFloat (v : PVal) : Option ℚ :=
  match v with
  | .num q => some q
  | .str s => pyFloatStr s

/-- Display of a rational in messages, standing in for Python `str()` of a
number (the exact rendering of numbers inside messages is not part of any
claim). -/
def ratStr (q : ℚ) : String :=
  if q.den == 1 then toString q.num else toString q.num ++ "/" ++ toString q.den

/-- Display of a `PVal` in messages. -/
def pvalStr : PVal → String
  | .num q => ratStr q
  | .str s => s

/-- Round half to even to an integer, the tie rule of Python `round`. -/
def roundHalfEven (q : ℚ) : ℤ :=
  let n := ⌊q⌋
  let r := q - (n : ℚ)
  if r < 1 / 2 then n else if 1 / 2 < r then n + 1 else if Even n then n else n + 1

/-- Python `round(q, 2)`. -/
def pyRound2 (q : ℚ) : ℚ := (roundHalfEven (q * 100) : ℚ) / 100

/-- Python `round(q, 1)`. -/
def pyRound1 (q : ℚ) : ℚ := (roundHalfEven (q * 10) : ℚ) / 10

/-! ## Python `' '.join(s.split())` (whitespace collapsing) -/

/-- Prepend a character to the first word of a word list. -/
def consHead (c : Char) : List (List Char) → List (List Char)
  | [] => [[c]]
  | w :: ws => (c :: w) :: ws

/-- Python `s.split()`: maximal runs of non-whitespace characters. -/
def pySplitWs : List Char → List (List Char)
  | [] => []
  | c :: rest =>
    if c.isWhitespace then pySplitWs rest
    else
      match rest with
      | [] => [[c]]
      | d :: _ => if d.isWhitespace then [c] :: pySplitWs rest else consHead c (pySplitWs rest)

/-- Python `' '.join(words)`. -/
def joinWs : List (List Char) → List Char
  | [] => []
  | [w] => w
  | w :: ws => w ++ ' ' :: joinWs ws

/-- Python `' '.join(s.split())`: collapse internal whitespace. -/
def collapseWs (l : List Char) : List Char := joinWs (pySplitWs l)

/-! ## src/ingestion/validator/field_validators.py -/

/-- `validate_asin(asin, rules)` with the default rules (`pattern` is the
default `^[A-Z0-9]{10}$`, which is also what every caller passes).
`none` models both a missing value and a non-string value. -/
def validate_asin (asin : Option String) : Bool × Option String :=
  match asin with
  | none => (false, some "ASIN must be a non-empty string")
  | some s =>
    if s = "" then (false, some "ASIN must be a non-empty string")
    else if reMatchAsin (stripList s.data) then (true, none)
    else (false, some ("Invalid ASIN format: " ++ s ++ ". Must be 10 alphanumeric characters."))

/-- `validate_title(title, rules)` with the default rules (min 3, max 500;
an over-long title only logs a warning and stays valid). -/
def validate_title (title : Option String) : Bool × Option String :=
  match title with
  | none => (false, some "Title must be a non-empty string")
  | some s =>
    if s = "" then (false, some "Title must be a non-empty string")
    else
      let t := pyStrip s
      if pyLen t < 3 then (false, some ("Title too short (min 3 characters): " ++ t))
      else (true, none)

/-- `validate_price(price, rules)` with the default rules (min 0.01,
max 1000000.0).  The argument is `none` when the dictionary holds `None`
(`float(None)` raises `TypeError`).  The trailing NaN/inf check cannot fire
for exact rationals. -/
def validate_price (price : Option ℚ) : Bool × Option String :=
  match price with
  | none => (false, some "Price must be a number: None")
  | some q =>
    if q < 1 / 100 then (false, some ("Price too low (" ++ ratStr q ++ " < 0.01)"))
    else if q > 1000000 then (false, some ("Price too high (" ++ ratStr q ++ " > 1000000.0)"))
    else (true, none)

/-- `validate_discount(discount, rules)` with the default rules (0 to 100). -/
def validate_discount (discount : Option ℚ) : Bool × Option String :=
  match discount with
  | none => (false, some "Discount must be a number: None")
  | some q =>
    if q < 0 then (false, some ("Discount too low (" ++ ratStr q ++ " < 0.0)"))
    else if q > 100 then (false, some ("Discount too high (" ++ ratStr q ++ " > 100.0)"))
    else (true, none)

/-- `validate_rating(rating, rules)` with the default rules (0 to 5). -/
def validate_rating (rating : Option ℚ) : Bool × Option String :=
  match rating with
  | none => (false, some "Rating must be a number: None")
  | some q =>
    if q < 0 then (false, some ("Rating too low (" ++ ratStr q ++ " < 0.0)"))
    else if q > 5 then (false, some ("Rating too high (" ++ ratStr q ++ " > 5.0)"))
    else (true, none)

/-- `validate_review_count(review_count, rules)` with the default rules
(min 0; a count above the max only logs a warning and stays valid). -/
def validate_review_count (review_count : Option ℤ) : Bool × Option String :=
  match review_count with
  | none => (false, some "Review count must be an integer: None")
  | some k =>
    if k < 0 then (false, some ("Review count too low (" ++ toString k ++ " < 0)"))
    else (true, none)

/-- A captured-at timestamp value as stored in the record: an ISO string or
an already-constructed datetime object. -/
inductive Ts where
  | tsStr (s : String)
  | tsDatetime
deriving DecidableEq

/-- Simplified model of `datetime.fromisoformat` acceptance after the
`replace('Z', '+00:00')` step: `YYYY-MM-DD`, optionally followed by a `T`
or space and `HH:MM:SS` with an optional fractional part.  (The pipeline
only produces `datetime.utcnow().isoformat()` strings, which this accepts.) -/
def isoParses (s : String) : Bool :=
  let l := s.data
  let dateOk :=
    (10 ≤ l.length : Bool) && (l.take 4).all Char.isDigit && (l.get? 4 == some '-') &&
      ((l.take 7).drop 5).all Char.isDigit && (l.get? 7 == some '-') &&
      ((l.take 10).drop 8).all Char.isDigit
  let rest := l.drop 10
  let timeOk :=
    match rest with
    | [] => true
    | sep :: t =>
      (sep == 'T' || sep == ' ') && (8 ≤ t.length : Bool) &&
        (t.take 2).all Char.isDigit && (t.get? 2 == some ':') &&
        ((t.take 5).drop 3).all Char.isDigit && (t.get? 5 == some ':') &&
        ((t.take 8).drop 6).all Char.isDigit
  dateOk && timeOk

/-- `validate_timestamp(timestamp)`: a falsy value is rejected, a string
must parse as ISO format, a datetime object passes. -/
def validate_timestamp (timestamp : Option Ts) : Bool × Option String :=
  match timestamp with
  | none => (false, some "Timestamp is required")
  | some (.tsStr s) =>
    if s = "" then (false, some "Timestamp is required")
    else if isoParses s then (true, none)
    else (false, some ("Invalid timestamp format: " ++ s ++ ". Error: invalid isoformat string"))
  | some .tsDatetime => (true, none)

/-- `validate_availability(availability)`: soft validation, always valid. -/
def validate_availability (_availability : Option String) : Bool × Option String :=
  (true, none)

/-! ## src/ingestion/validator.py -/

/-- The dictionary shape consumed by `validate_product` and
`clean_product_data`; `none` models an absent key or a `None` value (the
two are not distinguished by this module's checks). -/
structure PDict where
  product_id : Option String
  title : Option String
  price : Option PVal
  availability : Option String
  rating : Option PVal
  seller : Option String
deriving DecidableEq

/-- Python `if not data` on the dictionary: no keys at all. -/
def PDict.isEmptyDict (d : PDict) : Bool :=
  d.product_id.isNone && d.title.isNone && d.price.isNone && d.availability.isNone &&
    d.rating.isNone && d.seller.isNone

/-- The price checks of `validate_product` (run only when a price is
present): parse as float, positive, at most ten million. -/
def vpPriceErr (price : Option PVal) : Option String :=
  match price with
  | none => none
  | some v =>
    match pyFloat v with
    | none => some ("Invalid price: " ++ pvalStr v)
    | some q =>
      if q ≤ 0 then some ("Price must be positive: " ++ pvalStr v)
      else if q > 10000000 then some ("Suspiciously high price: " ++ pvalStr v)
      else none

/-- The rating checks of `validate_product` (run only when a rating is
present): parse as float, within 0 to 5. -/
def vpRatingErr (rating : Option PVal) : Option String :=
  match rating with
  | none => none
  | some v =>
    match pyFloat v with
    | none => some ("Invalid rating: " ++ pvalStr v)
    | some q => if 0 ≤ q ∧ q ≤ 5 then none else some ("Rating out of range: " ++ pvalStr v)

/-- `validate_product(data)`: quick sanity checks, returning at the first
violation.  Note that the ASIN pattern is applied to the raw id (no strip)
and that only the exact availability string `'in_stock'` triggers the
missing-price rule. -/
def validate_product (d : PDict) : Bool × String :=
  if d.isEmptyDict then (false, "Empty data")
  else
    match d.product_id with
    | none => (false, "Missing product_id")
    | some pid =>
      if pid = "" then (false, "Missing product_id")
      else if ¬ reMatchAsin pid.data then (false, "Invalid ASIN format: " ++ pid)
      else
        match vpPriceErr d.price with
        | some e => (false, e)
        | none =>
          if titleShort d.title then (false, "Title too short: " ++ titleShow d.title)
          else if d.availability == some "in_stock" && d.price == none then
            (false, "In-stock item missing price")
          else
            match vpRatingErr d.rating with
            | some e => (false, e)
            | none => (true, "OK")
where
  /-- Python `not title or len(str(title).strip()) < 3`. -/
  titleShort : Option String → Bool
    | none => true
    | some t => t == "" || pyLen (pyStrip t) < 3
  /-- Python `str(title)` inside the error message (`None` for a missing title). -/
  titleShow : Option String → String
    | none => "None"
    | some t => t

/-- `clean_product_data(data)`: strip the title (truncating past 500
characters with an ellipsis), strip the seller, uppercase and strip the
product id, and round a truthy price to two decimals (an unparseable price
becomes `None`). -/
def clean_product_data (d : PDict) : PDict :=
  let title :=
    match d.title with
    | none => none
    | some t =>
      if t = "" then some t
      else
        let t := pyStrip t
        if pyLen t > 500 then some (pyTake t 497 ++ "...") else some t
  let seller :=
    match d.seller with
    | none => none
    | some s => if s = "" then some s else some (pyStrip s)
  let product_id :=
    match d.product_id with
    | none => none
    | some pid => some (pyStrip (pyUpper pid))
  let price :=
    match d.price with
    | none => none
    | some v =>
      if v.truthy then
        match pyFloat v with
        | some q => some (PVal.num (pyRound2 q))
        | none => none
      else some v
  { d with title := title, seller := seller, product_id := product_id, price := price }

/-! ## src/ingestion/validator/business_rules.py -/

/-- `BusinessRuleValidator.validate_product_availability(data)`: the
availability string (defaulting to `''`) is lowercased; `in_stock` or
`available` with a `None` price is rejected, `out_of_stock` and
`unavailable` accept a missing price, everything else passes. -/
def validate_product_availability (availability : Option String) (price : Option PVal) :
    Bool × Option String :=
  let a := pyLower (availability.getD "")
  if (a == "in_stock" || a == "available") && price == none then
    (false, some "In-stock product must have a price")
  else (true, none)

/-- `DataSanitizer.sanitize_string(value)` with the default `max_length`
of 500 (the only call site uses the default): collapse whitespace runs to
single spaces, then truncate to 500 characters. -/
def sanitize_string (value : Option String) : Option String :=
  match value with
  | none => none
  | some s =>
    let w := collapseWs s.data
    some ⟨if w.length > 500 then w.take 500 else w⟩

/-- `DataSanitizer.sanitize_price(price)`: `None` stays `None`; a string is
reduced to its digit-and-dot characters and parsed with `float` (failure,
caught, gives `None`); a number is passed through `float`. -/
def sanitize_price (price : Option PVal) : Option PVal :=
  match price with
  | none => none
  | some (.str s) =>
    let clean := s.data.filter (fun c => c.isDigit || c == '.')
    if decValid clean then some (.num (decVal clean)) else none
  | some (.num q) => some (.num q)

/-- `DataSanitizer.sanitize_rating(rating)`: parse as float (failure gives
`None`), clamp below 0 to 0.0 and above 5 to 5.0, otherwise round to one
decimal. -/
def sanitize_rating (rating : Option PVal) : Option PVal :=
  match rating with
  | none => none
  | some v =>
    match pyFloat v with
    | none => none
    | some q =>
      if q < 0 then some (.num 0)
      else if q > 5 then some (.num 5)
      else some (.num (pyRound1 q))

/-- The dictionary shape consumed by `DataSanitizer.sanitize_product_data`
(`none` models an absent key or a `None` value; the two produce the same
sanitized record). -/
structure SDict where
  title : Option String
  seller : Option String
  availability : Option String
  price : Option PVal
  rating : Option PVal
  product_id : Option String
deriving DecidableEq

/-- `DataSanitizer.sanitize_product_data(data)`: sanitize the string fields
`title`, `seller`, `availability`; sanitize `price` and `rating`; uppercase
and strip a truthy `product_id`. -/
def sanitize_product_data (d : SDict) : SDict :=
  { title := sanitize_string d.title
    seller := sanitize_string d.seller
    availability := sanitize_string d.availability
    price := sanitize_price d.price
    rating := sanitize_rating d.rating
    product_id :=
      match d.product_id with
      | none => none
      | some pid => if pid = "" then some pid else some (pyStrip (pyUpper pid)) }

/-! ## src/pipeline/transform.py -/

/-- `parse_price(price_text)`: strip everything but digits and dots, then
`float(Decimal(clean))`.  `Decimal` raises `decimal.InvalidOperation` on a
nonempty residue that is not a valid decimal literal, and that exception is
NOT caught by the `except (ValueError, TypeError)` clause, so the function
can raise; the raise is modelled as `Except.error`. -/
def parse_price (price_text : String) : Except String (Option ℚ) :=
  if price_text = "" then .ok none
  else
    let clean := price_text.data.filter (fun c => c.isDigit || c == '.')
    if clean.isEmpty then .ok none
    else if decValid clean then .ok (some (decVal clean))
    else .error "decimal.InvalidOperation"

/-- The raw dictionary consumed by `transform_product_record` (the
JSON-string input branch re-enters with the decoded dictionary and is not
modelled separately). -/
structure TIn where
  product_id : Option String
  asin : Option String
  price : Option PVal
  price_text : Option String
  title : Option String
  availability : Option String
  currency : Option String
  seller : Option String
  rating : Option PVal
  url : Option String
  timestamp : Option String
  extracted_at : Option String
  raw_id : Option String
deriving DecidableEq

/-- The transformed record built by `transform_product_record`. -/
structure TOut where
  product_id : String
  title : String
  price : Option ℚ
  currency : String
  availability : String
  seller : String
  rating : Option PVal
  source_url : String
  scraped_at : Option String
  transformed_at : String
  raw_id : Option String
deriving DecidableEq

/-- Python `a or b` over optional strings (`''` is falsy). -/
def pyOrStr (a b : Option String) : Option String :=
  match a with
  | some s => if s = "" then b else some s
  | none => b

/-- `transform_product_record(raw_record, now)`: pick the product id from
`product_id` or `asin` (returning `None`, modelled `.ok none`, when both
are missing or falsy); parse the price from a numeric `price`, a string
`price` (which can raise, propagated as `.error`), or `price_text`; null
out non-positive or suspiciously high prices; strip and cap the title;
lowercase the availability text and map it onto the enum by substring
match; discard the price entirely for an out-of-stock record; and assemble
the output record. -/
def transform_product_record (d : TIn) (nowIso : String) : Except String (Option TOut) :=
  match pyOrStr d.product_id d.asin with
  | none => .ok none
  | some pid =>
    if pid = "" then .ok none
    else
      let priceStep : Except String (Option ℚ) :=
        match d.price with
        | some (.num q) => .ok (some q)
        | some (.str s) => parse_price s
        | none =>
          match d.price_text with
          | some pt => parse_price pt
          | none => .ok none
      match priceStep with
      | .error e => .error e
      | .ok price0 =>
        let price1 :=
          match price0 with
          | none => none
          | some q => if q ≤ 0 then none else if q > 10000000 then none else some q
        let title0 := pyStrip (d.title.getD "")
        let title :=
          if title0 ≠ "" ∧ pyLen title0 > 500 then pyTake title0 497 ++ "..." else title0
        let availRaw := pyLower (d.availability.getD "")
        let availability :=
          if containsSub availRaw.data "out of stock".data ||
              containsSub availRaw.data "unavailable".data then "out_of_stock"
          else if containsSub availRaw.data "in stock".data then "in_stock"
          else "unknown"
        let price2 := if availability = "out_of_stock" then none else price1
        .ok (some
          { product_id := pyStrip (pyUpper pid)
            title := title
            price := price2
            currency := d.currency.getD "INR"
            availability := availability
            seller := pyTake (pyStrip (d.seller.getD "")) 100
            rating := d.rating
            source_url := d.url.getD ("https://amazon.in/dp/" ++ pid)
            scraped_at := pyOrStr d.timestamp d.extracted_at
            transformed_at := nowIso
            raw_id := d.raw_id })

/-! ## src/ingestion/parser.py -/

/-- `extract_float_from_text(text)`: remove commas, then take the first
regex match of `[\d,]+\.?\d*` (with commas already gone: a digit run,
optionally a dot and a further digit run) and parse it as a float, which
cannot fail; no match gives `None`.  This function is total. -/
def extract_float_from_text (text : String) : Option ℚ :=
  let l := text.data.filter (fun c => c ≠ ',')
  let l := l.dropWhile (fun c => ¬ c.isDigit)
  if l.isEmpty then none
  else
    let ip := l.takeWhile Char.isDigit
    let rest := l.drop ip.length
    let fp := match rest with
      | '.' :: t => t.takeWhile Char.isDigit
      | _ => []
    some ((digitsVal ip : ℚ) + (digitsVal fp : ℚ) / ((10 : ℚ) ^ fp.length))

/-! ## src/ingestion/validator/base_validator.py -/

/-- A dictionary entry as seen by `DataValidator.validate_product_data`,
where a missing key (`absent`) and a `None` value (`null`) take different
paths (`'field' in product_data` versus `is not None`). -/
inductive Dv (α : Type) where
  | absent
  | null
  | val (a : α)
deriving DecidableEq

/-- Python truthiness of a `Dv` entry holding a string. -/
def Dv.strFalsy : Dv String → Bool
  | .absent => true
  | .null => true
  | .val s => s == ""

/-- Python truthiness of a `Dv` entry holding a timestamp. -/
def Dv.tsFalsy : Dv Ts → Bool
  | .absent => true
  | .null => true
  | .val (.tsStr s) => s == ""
  | .val .tsDatetime => false

/-- The record validated by `DataValidator.validate_product_data`.  The
numeric fields are typed with the values the parser produces (floats and
ints); string-typed numerics do not occur on this path. -/
structure VRecord where
  asin : Dv String
  url : Dv String
  title : Dv String
  current_price : Dv ℚ
  original_price : Dv ℚ
  discount_percentage : Dv ℚ
  rating : Dv ℚ
  review_count : Dv ℤ
  timestamp : Dv Ts
  availability : Dv String
deriving DecidableEq

/-- The error slot of a `(is_valid, error)` pair as appended by
`validate_product_data` (`errors.append(x_error)` under `if not x_valid`). -/
def errOf (r : Bool × Option String) : List String :=
  if r.1 then [] else r.2.toList

/-- `validate_url(url, rules)` with the default rules: the anchored,
case-insensitive pattern `^https?://(www\.)?amazon\.(com|co\.uk|de|fr|it|es|ca|co\.jp)/`.
The dots inside `co.uk` and `co.jp` are unescaped in the source pattern and
therefore match any character, which `tldPat` reproduces with `'.'` as a
wildcard. -/
def validate_url (url : Option String) : Bool × Option String :=
  match url with
  | none => (false, some "URL must be a non-empty string")
  | some s =>
    if s = "" then (false, some "URL must be a non-empty string")
    else if urlOk s then (true, none)
    else (false, some ("URL must be a valid Amazon URL: " ++ s))
where
  /-- Match a pattern whose `'.'` is a wildcard, returning the rest. -/
  tldPat : List Char → List Char → Option (List Char)
    | [], l => some l
    | _ :: _, [] => none
    | p :: ps, c :: cs => if p == '.' || p == c then tldPat ps cs else none
  afterScheme (l : List Char) : Bool :=
    let l := if "www.".data.isPrefixOf l then l.drop 4 else l
    "amazon.".data.isPrefixOf l &&
      (["com", "co.uk", "de", "fr", "it", "es", "ca", "co.jp"].any (fun tld =>
        match tldPat tld.data (l.drop 7) with
        | some ('/' :: _) => true
        | _ => false))
  urlOk (s : String) : Bool :=
    let l := (pyLower s).data
    (if "https://".data.isPrefixOf l then afterScheme (l.drop 8)
     else if "http://".data.isPrefixOf l then afterScheme (l.drop 7)
     else false)

/-- The `Missing required field` loop over `['asin', 'url', 'timestamp']`. -/
def requiredErrs (r : VRecord) : List String :=
  (if r.asin.strFalsy then ["Missing required field: asin"] else []) ++
    (if r.url.strFalsy then ["Missing required field: url"] else []) ++
      (if r.timestamp.tsFalsy then ["Missing required field: timestamp"] else [])

/-- The `'asin' in product_data` block. -/
def asinErrs (r : VRecord) : List String :=
  match r.asin with
  | .absent => []
  | .null => errOf (validate_asin none)
  | .val s => errOf (validate_asin (some s))

/-- The `'url' in product_data` block. -/
def urlErrs (r : VRecord) : List String :=
  match r.url with
  | .absent => []
  | .null => errOf (validate_url none)
  | .val s => errOf (validate_url (some s))

/-- The `'title' in product_data` block. -/
def titleErrs (r : VRecord) : List String :=
  match r.title with
  | .absent => []
  | .null => errOf (validate_title none)
  | .val s => errOf (validate_title (some s))

/-- The `'current_price' in product_data` block (a `None` value still runs
`validate_price`, whose `float(None)` fails). -/
def currentPriceErrs (r : VRecord) : List String :=
  match r.current_price with
  | .absent => []
  | .null => errOf (validate_price none)
  | .val q => errOf (validate_price (some q))

/-- The `'original_price' in product_data and product_data['original_price']`
block: a falsy value (missing, `None`, or `0`) is skipped. -/
def originalPriceErrs (r : VRecord) : List String :=
  match r.original_price with
  | .val q => if q = 0 then [] else errOf (validate_price (some q))
  | _ => []

/-- The `'discount_percentage' ... is not None` block. -/
def discountErrs (r : VRecord) : List String :=
  match r.discount_percentage with
  | .val q => errOf (validate_discount (some q))
  | _ => []

/-- The `'rating' ... is not None` block. -/
def ratingErrs (r : VRecord) : List String :=
  match r.rating with
  | .val q => errOf (validate_rating (some q))
  | _ => []

/-- The `'review_count' ... is not None` block. -/
def reviewCountErrs (r : VRecord) : List String :=
  match r.review_count with
  | .val k => errOf (validate_review_count (some k))
  | _ => []

/-- The `'timestamp' in product_data` block. -/
def timestampErrs (r : VRecord) : List String :=
  match r.timestamp with
  | .absent => []
  | .null => errOf (validate_timestamp none)
  | .val t => errOf (validate_timestamp (some t))

/-- The `'availability' in product_data` block (`validate_availability`
never fails). -/
def availabilityErrs (r : VRecord) : List String :=
  match r.availability with
  | .absent => []
  | .null => errOf (validate_availability none)
  | .val s => errOf (validate_availability (some s))

/-- Modelled from the spec: `base_validator.py` imports and calls
`validate_business_logic` from `business_rules.py`, but no function of
that name exists anywhere in the source tree.  The spec's cross-field
business rules (section 4.4) are modelled here: availability `in_stock` or
`available` requires a present current price (reject "in-stock item
missing price"), and with both prices present a supplied discount
percentage must match `(original-current)/original*100` within 5
percentage points.  The spec's freshness rule needs a wall clock and is
modelled separately by `validate_data_freshness`. -/
def validate_business_logic (r : VRecord) : List String :=
  let inStockErr :=
    match r.availability, r.current_price with
    | .val _, .val _ => []
    | .val a, _ =>
      if a = "in_stock" ∨ a = "available" then ["in-stock item missing price"] else []
    | _, _ => []
  let discountErr :=
    match r.current_price, r.original_price, r.discount_percentage with
    | .val c, .val o, .val d =>
      if o ≠ 0 ∧ ((o - c) / o * 100 - d > 5 ∨ d - (o - c) / o * 100 > 5) then
        ["discount percentage mismatch"]
      else []
    | _, _, _ => []
  inStockErr ++ discountErr

/-- `DataValidator.validate_product_data(product_data)` with the default
rules: run every field check in order, collecting all violation messages,
then the business-logic checks; the record is valid iff no message was
collected. -/
def validate_product_data (r : VRecord) : Bool × List String :=
  let errors :=
    requiredErrs r ++ asinErrs r ++ urlErrs r ++ titleErrs r ++ currentPriceErrs r ++
      originalPriceErrs r ++ discountErrs r ++ ratingErrs r ++ reviewCountErrs r ++
        timestampErrs r ++ availabilityErrs r ++ validate_business_logic r
  (errors.isEmpty, errors)

/-! ## src/storage/duckdb_setup.py (update_product) -/

/-- The row written to the `products` table. -/
structure Snapshot where
  title : Option String
  current_price : Option ℚ
  availability : String
  rating : Option ℚ
  seller : Option String
  url : Option String
deriving DecidableEq

/-- A row of the append-only `price_history` table (its timestamp column is
filled by a SQL default and carries no information for the claims). -/
structure HistRow where
  product_id : String
  price : ℚ
  availability : String
deriving DecidableEq

/-- The record handed to `update_product`; `product_id` is accessed with
`[]` and must be present. -/
structure UpsertIn where
  product_id : String
  title : Option String
  price : Option ℚ
  availability : Option String
  rating : Option ℚ
  seller : Option String
  url : Option String
deriving DecidableEq

/-- The two persisted tables. -/
structure Store where
  products : List (String × Snapshot)
  price_history : List HistRow
deriving DecidableEq

/-- Lookup of the first row with a given key in an association list. -/
def dlookup {α : Type} (l : List (String × α)) (k : String) : Option α :=
  match l with
  | [] => none
  | (k2, v) :: rest => if k2 == k then some v else dlookup rest k

/-- `update_product(product_data)`: read the old snapshot (its price is
fetched but never compared — no deduplication), upsert the `products` row
(the `ON CONFLICT` clause does not update `url`, so an existing row keeps
its old `url`), and append one `price_history` row iff the price is not
`None`. -/
def update_product (pd : UpsertIn) (st : Store) : Store :=
  let avail := pd.availability.getD "unknown"
  let snapNew : Snapshot :=
    { title := pd.title, current_price := pd.price, availability := avail,
      rating := pd.rating, seller := pd.seller, url := pd.url }
  let products :=
    match dlookup st.products pd.product_id with
    | some old =>
      st.products.map (fun p =>
        if p.1 == pd.product_id then (p.1, { snapNew with url := old.url }) else p)
    | none => st.products ++ [(pd.product_id, snapNew)]
  let history :=
    match pd.price with
    | some pr =>
      st.price_history ++ [{ product_id := pd.product_id, price := pr, availability := avail }]
    | none => st.price_history
  { products := products, price_history := history }

/-! ## src/ingestion/header.py -/

/-- A browser profile as loaded by `HeaderManager._load_browser_profiles`. -/
structure BrowserProfile where
  user_agent : String
  accept_language : String
  accept_encoding : String
  platform : String
deriving DecidableEq

/-- The three profiles hard-coded in `_load_browser_profiles`. -/
def browserProfiles : Fin 3 → BrowserProfile
  | 0 =>
    { user_agent := "Mozilla/5.0 (Windows NT 10.0; Win64; x64) AppleWebKit/537.36",
      accept_language := "en-US,en;q=0.9", accept_encoding := "gzip, deflate, br",
      platform := "Win32" }
  | 1 =>
    { user_agent := "Mozilla/5.0 (Macintosh; Intel Mac OS X 10_15_7) AppleWebKit/537.36",
      accept_language := "en-GB,en;q=0.9", accept_encoding := "gzip, deflate, br",
      platform := "MacIntel" }
  | 2 =>
    { user_agent := "Mozilla/5.0 (X11; Linux x86_64) AppleWebKit/537.36",
      accept_language := "en-US,en;q=0.8", accept_encoding := "gzip, deflate" ,
      platform := "Linux x86_64" }

/-- The header map built by `get_headers` (the remaining entries of the
dictionary are constants shared by every profile; two representatives are
kept). -/
structure Headers where
  userAgent : String
  acceptLanguage : String
  acceptEncoding : String
  accept : String
  connection : String
deriving DecidableEq

/-- `HeaderManager.get_headers()`: return the profile at the cursor and
advance the cursor round-robin (`(i + 1) % len(self._profiles)`); the
state is the cursor `_current_profile_index`. -/
def get_headers (i : Fin 3) : Headers × Fin 3 :=
  let p := browserProfiles i
  ({ userAgent := p.user_agent, acceptLanguage := p.accept_language,
     acceptEncoding := p.accept_encoding,
     accept := "text/html,application/xhtml+xml,application/xml;q=0.9,*/*;q=0.8",
     connection := "keep-alive" }, i + 1)

/-- `HeaderManager.rotate_user_agent()`: jump to `random.randint(0, 2)`;
the random draw is supplied as the argument `r`. -/
def rotate_user_agent (r : Fin 3) (_i : Fin 3) : Fin 3 := r

/-! ## src/ingestion/amazon_scraper.py -/

/-- One network attempt is nondeterministic: an oracle maps the attempt
number to the result of `scrape_product` (`none` for a failed request or a
detected block, `some html` for a 200 response body). -/
def ScrapeOracle : Type := Nat → Option String

/-- `AmazonScraper.scrape_with_retry(product_id, max_attempts)`: try the
attempts in order, returning the first truthy body (`if html:` — an empty
body counts as a failure), and `None` once `max_attempts` attempts have
failed. -/
def scrape_with_retry (oracle : ScrapeOracle) (attempt maxAttempts : Nat) : Option String :=
  if _h : maxAttempts < attempt then none
  else
    match oracle attempt with
    | some s => if s ≠ "" then some s else scrape_with_retry oracle (attempt + 1) maxAttempts
    | none => scrape_with_retry oracle (attempt + 1) maxAttempts
termination_by maxAttempts + 1 - attempt
decreasing_by all_goals omega

/-- The loop body of `scrape_multiple_products`: Python dictionary
assignment `results[product_id] = ...` overwrites an existing key in place
and otherwise appends. -/
def dictInsert {α : Type} (res : List (String × α)) (k : String) (v : α) :
    List (String × α) :=
  if res.any (fun p => p.1 == k) then res.map (fun p => if p.1 == k then (k, v) else p)
  else res ++ [(k, v)]

/-- The `for` loop of `scrape_multiple_products` over the remaining ids. -/
def smpGo (oracle : String → ScrapeOracle) :
    List String → List (String × Option String) → List (String × Option String)
  | [], res => res
  | pid :: rest, res =>
    smpGo oracle rest (dictInsert res pid (scrape_with_retry (oracle pid) 1 3))

/-- `AmazonScraper.scrape_multiple_products(product_ids)`: sequentially,
in the supplied order, fetch each id with `scrape_with_retry(product_id,
max_attempts=3)` and record the result (or `None`) in the results
dictionary. -/
def scrape_multiple_products (oracle : String → ScrapeOracle) (ids : List String) :
    List (String × Option String) :=
  smpGo oracle ids []

/-! ## Association-list lemmas -/

theorem dlookup_append_single {α : Type} (l : List (String × α)) (k : String) (v : α)
    (h : dlookup l k = none) : dlookup (l ++ [(k, v)]) k = some v := by
  induction l with
  | nil => simp [dlookup]
  | cons p rest ih =>
    obtain ⟨k2, w⟩ := p
    by_cases hk : k2 = k
    · rw [dlookup, if_pos (by simp [hk])] at h
      exact absurd h (by simp)
    · rw [dlookup, if_neg (by simp [hk])] at h
      rw [List.cons_append, dlookup, if_neg (by simp [hk])]
      exact ih h

theorem dlookup_map_update {α : Type} (l : List (String × α)) (k : String) (v : α)
    (h : dlookup l k ≠ none) :
    dlookup (l.map (fun p => if p.1 == k then (p.1, v) else p)) k = some v := by
  induction l with
  | nil => rw [dlookup] at h; exact absurd rfl h
  | cons p rest ih =>
    obtain ⟨k2, w⟩ := p
    by_cases hk : k2 = k
    · rw [List.map_cons]
      have : (if ((k2, w).1 == k) then ((k2, w).1, v) else (k2, w)) = (k2, v) := by
        simp [hk]
      rw [this, dlookup, if_pos (by simp [hk])]
    · rw [dlookup, if_neg (by simp [hk])] at h
      rw [List.map_cons]
      have : (if ((k2, w).1 == k) then ((k2, w).1, v) else (k2, w)) = (k2, w) := by
        simp [hk]
      rw [this, dlookup, if_neg (by simp [hk])]
      exact ih h

theorem dlookup_map_fn {α : Type} (ids : List String) (f : String → α) (pid : String)
    (h : pid ∈ ids) : dlookup (ids.map (fun x => (x, f x))) pid = some (f pid) := by
  induction ids with
  | nil => exact absurd h (List.not_mem_nil pid)
  | cons x rest ih =>
    by_cases hx : x = pid
    · subst hx
      rw [List.map_cons, dlookup, if_pos (by simp)]
    · rw [List.map_cons, dlookup, if_neg (by simp [hx])]
      rcases List.mem_cons.mp h with h2 | h2
      · exact absurd h2.symm hx
      · exact ih h2

/-- The history rows appended by one `update_product` call: one iff the
price is non-null. -/
def histRowsOf (pd : UpsertIn) : List HistRow :=
  match pd.price with
  | some pr =>
    [{ product_id := pd.product_id, price := pr, availability := pd.availability.getD "unknown" }]
  | none => []

/-- C4.  For every record passed to `update_product`, the current-snapshot
row for its identifier is written (inserted or overwritten) regardless of
whether a price is present (its stored price and availability are the
record's), exactly one history row is appended iff the price is non-null,
and repeating the same upsert appends the history row again — no
deduplication against the previous price. -/
theorem c4_upsert_snapshot_and_history (pd : UpsertIn) (st : Store) :
    ((dlookup (update_product pd st).products pd.product_id).map
        Snapshot.current_price = some pd.price) ∧
      ((dlookup (update_product pd st).products pd.product_id).map
          Snapshot.availability = some (pd.availability.getD "unknown")) ∧
        ((update_product pd st).price_history = st.price_history ++ histRowsOf pd) ∧
          ((update_product pd (update_product pd st)).price_history =
            st.price_history ++ histRowsOf pd ++ histRowsOf pd) := by
  have snap (st2 : Store) :
      dlookup (update_product pd st2).products pd.product_id =
        some { title := pd.title, current_price := pd.price,
               availability := pd.availability.getD "unknown", rating := pd.rating,
               seller := pd.seller,
               url := match dlookup st2.products pd.product_id with
                      | some old => old.url
                      | none => pd.url } := by
    rw [update_product]
    cases hold : dlookup st2.products pd.product_id with
    | none => simp only [hold]; exact dlookup_append_single _ _ _ hold
    | some old => simp only [hold]; exact dlookup_map_update _ _ _ (by rw [hold]; simp)
  have hist (st2 : Store) :
      (update_product pd st2).price_history = st2.price_history ++ histRowsOf pd := by
    rw [update_product, histRowsOf]
    cases pd.price <;> simp
  refine ⟨?_, ?_, hist st, ?_⟩
  · rw [snap st]; rfl
  · rw [snap st]; rfl
  · rw [hist (update_product pd st), hist st, List.append_assoc]

/-- C8 counterexample.  The claim says two consecutive `get_headers` calls
never return identical header maps in ANY sequence of operations.  But
`rotate_user_agent` jumps to a uniformly random profile, which can be the
profile just served: starting at cursor 0, `get_headers` serves profile 0
and advances; a forced rotation drawing 0 puts the cursor back on 0; the
next `get_headers` serves profile 0 again — identical headers. -/
theorem c8_counterexample_rotation_repeats :
    (get_headers (rotate_user_agent 0 (get_headers 0).2)).1 = (get_headers 0).1 := by decide

/-- C8 amended.  Without an intervening forced rotation, two consecutive
`get_headers` calls always return different header maps (the cursor
advances round-robin over the three pairwise-distinct hard-coded
profiles); a `rotate_user_agent` between the calls can repeat the same
map, as the counterexample shows. -/
theorem c8_consecutive_headers_differ :
    (∀ i : Fin 3, (get_headers ((get_headers i).2)).1 ≠ (get_headers i).1) ∧
      (∀ i j : Fin 3, i ≠ j → browserProfiles i ≠ browserProfiles j) := by decide

/-- C8 witness: the amended theorem applied at cursor 0 and at the profile
pair (0, 1). -/
theorem c8_witness :
    (get_headers ((get_headers 0).2)).1 ≠ (get_headers 0).1 ∧
      browserProfiles 0 ≠ browserProfiles 1 :=
  ⟨c8_consecutive_headers_differ.1 0, c8_consecutive_headers_differ.2 0 1 (by decide)⟩

/-- C6 counterexample.  The claim says price extraction never raises for
any input string.  `parse_price` strips "v1.2.3"-like text to the residue
"1.2.3", on which `Decimal` raises `decimal.InvalidOperation`; the
function only catches `(ValueError, TypeError)`, so the exception
escapes. -/
theorem c6_counterexample_parse_price_raises :
    parse_price "1.2.3" = .error "decimal.InvalidOperation" := by rfl

/-- C6 amended.  The two documented examples hold in `parse_price`,
`extract_float_from_text` and `sanitize_price` ("₹1,234.56" extracts as
1234.56 and "N/A" yields absent without an exception), and
`extract_float_from_text` and `sanitize_price` are total; but `parse_price`
is not total: it raises exactly when its digit-and-dot residue is nonempty
and not a valid decimal literal (more than one dot, or no digit). -/
theorem c6_price_extraction_examples :
    parse_price "₹1,234.56" = .ok (some (123456 / 100)) ∧
      parse_price "N/A" = .ok none ∧
        extract_float_from_text "₹1,234.56" = some (123456 / 100) ∧
          extract_float_from_text "N/A" = none ∧
            sanitize_price (some (.str "₹1,234.56")) = some (.num (123456 / 100)) ∧
              sanitize_price (some (.str "N/A")) = none ∧
                (∀ s : String,
                  (∃ e, parse_price s = .error e) ↔
                    (s ≠ "" ∧ (s.data.filter (fun c => c.isDigit || c == '.')).isEmpty = false ∧
                      decValid (s.data.filter (fun c => c.isDigit || c == '.')) = false)) := by
  have hclean : "₹1,234.56".data.filter (fun c => c.isDigit || c == '.') = "1234.56".data := by
    decide
  have hval : decVal "1234.56".data = 123456 / 100 := by
    rw [decVal]
    have h1 : "1234.56".data.takeWhile (fun c => c ≠ '.') = "1234".data := by decide
    have h2 : ("1234.56".data.dropWhile (fun c => c ≠ '.')).drop 1 = "56".data := by decide
    rw [h1, h2]
    have h3 : digitsVal "1234".data = 1234 := by decide
    have h4 : digitsVal "56".data = 56 := by decide
    rw [h3, h4]
    norm_num
  refine ⟨?_, rfl, ?_, rfl, ?_, rfl, ?_⟩
  · rw [parse_price, if_neg (by decide), hclean, if_neg (by decide), if_pos (by decide), hval]
  · have h1 : ("₹1,234.56".data.filter (fun c => c ≠ ',')).dropWhile (fun c => ¬ c.isDigit) =
        "1234.56".data := by decide
    have h2 : "1234.56".data.takeWhile Char.isDigit = "1234".data := by decide
    have h3 : List.drop "1234".data.length "1234.56".data = '.' :: "56".data := by decide
    have h4 : "56".data.takeWhile Char.isDigit = "56".data := by decide
    rw [extract_float_from_text]
    simp only [h1, h2, h3, h4]
    rw [if_neg (by decide)]
    have h5 : digitsVal "1234".data = 1234 := by decide
    have h6 : digitsVal "56".data = 56 := by decide
    rw [h5, h6]
    norm_num
  · rw [sanitize_price]
    simp only [hclean]
    rw [if_pos (by decide), hval]
  · intro s
    rw [parse_price]
    by_cases h0 : s = ""
    · simp [h0]
    · simp only [h0, if_false]
      by_cases h1 : (s.data.filter (fun c => c.isDigit || c == '.')).isEmpty
      · simp [h0, h1]
      · by_cases h2 : decValid (s.data.filter (fun c => c.isDigit || c == '.'))
        · simp [h0, h1, h2]
        · simp [h0, h1, h2]

/-- C6 witness: the raising characterization of the amended theorem
applied at the concrete input "1.2.3". -/
theorem c6_witness : ∃ e, parse_price "1.2.3" = .error e :=
  (c6_price_extraction_examples.2.2.2.2.2.2 "1.2.3").mpr (by decide)

/-- C1 counterexample.  The claim says identifier validation fails for
all-digit strings.  But `validate_asin` only applies the pattern
`^[A-Z0-9]{10}$`: the all-digit identifier "1234567890" passes, and no
all-digit or all-letter exclusion exists anywhere in the source. -/
theorem c1_counterexample_all_digit_passes :
    (validate_asin (some "1234567890")).1 = true ∧
      "1234567890".data.all Char.isDigit = true := by decide

/-- C1 amended.  Identifier validation passes iff the stripped string is
exactly 10 characters drawn from `[A-Z0-9]` (uppercase letters or digits) —
with no all-digit or all-letter exclusion, and with lowercase letters
rejected; any other string fails with the non-empty-string message or the
10-alphanumeric format message. -/
theorem c1_asin_validation (s : String) :
    ((validate_asin (some s)).1 = true ↔ (s ≠ "" ∧ reMatchAsin (stripList s.data) = true)) ∧
      ((validate_asin (some s)).1 = false →
        (validate_asin (some s)).2 = some "ASIN must be a non-empty string" ∨
          (validate_asin (some s)).2 =
            some ("Invalid ASIN format: " ++ s ++ ". Must be 10 alphanumeric characters.")) := by
  constructor
  · rw [validate_asin]
    by_cases h : s = ""
    · simp [h]
    · by_cases m : reMatchAsin (stripList s.data) <;> simp [h, m]
  · rw [validate_asin]
    by_cases h : s = ""
    · simp [h]
    · by_cases m : reMatchAsin (stripList s.data) <;> simp [h, m]

/-- C1 witness: the amended characterization applied to a well-formed
mixed identifier and to a lowercase one. -/
theorem c1_witness :
    (validate_asin (some "B08N5WRWNW")).1 = true ∧
      ¬ (validate_asin (some "b08n5wrwnw")).1 = true :=
  ⟨(c1_asin_validation "B08N5WRWNW").1.mpr (by decide),
    fun hc => by
      have h2 := (c1_asin_validation "b08n5wrwnw").1.mp hc
      exact absurd h2.2 (by decide)⟩

/-- C2 counterexample.  The claim says a record with availability
`available` and an absent price is rejected with reason "in-stock item
missing price".  But `validate_product` compares the availability only
against the exact string `'in_stock'`, so this record passes validation
outright. -/
theorem c2_counterexample_available_passes :
    validate_product
      { product_id := some "B08N5WRWNW", title := some "Widget", price := none,
        availability := some "available", rating := none, seller := none } = (true, "OK") := by
  decide

/-- C2 amended.  The business-rule validator `validate_product_availability`
rejects a record iff its lowercased availability is `in_stock` or
`available` and the price is `None`, but with the message "In-stock product
must have a price"; the quick validator `validate_product` emits the exact
message "In-stock item missing price", but only for the exact availability
string `in_stock` (an `available` record with no price passes it, as the
counterexample shows), and accepts an `out_of_stock` record with no
price. -/
theorem c2_in_stock_missing_price :
    (∀ (a : String) (p : Option PVal),
      ((validate_product_availability (some a) p).1 = false ↔
        ((pyLower a = "in_stock" ∨ pyLower a = "available") ∧ p = none)) ∧
        ((validate_product_availability (some a) p).1 = false →
          (validate_product_availability (some a) p).2 =
            some "In-stock product must have a price")) ∧
      (∀ pid title : String, reMatchAsin pid.data = true → 3 ≤ pyLen (pyStrip title) →
        validate_product
          { product_id := some pid, title := some title, price := none,
            availability := some "in_stock", rating := none, seller := none } =
          (false, "In-stock item missing price")) ∧
        (∀ pid title : String, reMatchAsin pid.data = true → 3 ≤ pyLen (pyStrip title) →
          validate_product
            { product_id := some pid, title := some title, price := none,
              availability := some "out_of_stock", rating := none, seller := none } =
            (true, "OK")) := by
  refine ⟨?_, ?_, ?_⟩
  · intro a p
    rw [validate_product_availability]
    by_cases hc : (pyLower ((some a).getD "") == "in_stock" ||
        pyLower ((some a).getD "") == "available") && p == none
    · rw [if_pos hc]
      simp only [Option.getD_some] at hc
      simp at hc
      simp [hc]
    · rw [if_neg hc]
      simp only [Option.getD_some] at hc
      simp at hc
      constructor
      · constructor
        · intro h; exact absurd h (by simp)
        · intro ⟨h1, h2⟩
          rcases h1 with h1 | h1 <;> exact absurd h2 (hc (by simp [h1]))
      · intro h; exact absurd h (by simp)
  · intro pid title hpid htitle
    have hne : pid ≠ "" := by
      intro h; subst h; exact absurd hpid (by decide)
    have htne2 : title ≠ "" := by
      intro h; subst h; exact absurd htitle (by decide)
    rw [validate_product, if_neg (by simp [PDict.isEmptyDict])]
    simp only [if_neg hne]
    rw [if_neg (by simp [hpid])]
    show (match vpPriceErr none with
      | some e => (false, e)
      | none => _) = _
    simp only [vpPriceErr]
    rw [if_neg (by simp [validate_product.titleShort, htne2, Nat.not_lt.mpr htitle])]
    rw [if_pos (by simp)]
  · intro pid title hpid htitle
    have hne : pid ≠ "" := by
      intro h; subst h; exact absurd hpid (by decide)
    have htne2 : title ≠ "" := by
      intro h; subst h; exact absurd htitle (by decide)
    rw [validate_product, if_neg (by simp [PDict.isEmptyDict])]
    simp only [if_neg hne]
    rw [if_neg (by simp [hpid])]
    show (match vpPriceErr none with
      | some e => (false, e)
      | none => _) = _
    simp only [vpPriceErr]
    rw [if_neg (by simp [validate_product.titleShort, htne2, Nat.not_lt.mpr htitle])]
    rw [if_neg (by simp)]
    rfl

/-- C2 witness: the amended theorem applied at a concrete in-stock record
with no price, a concrete out-of-stock record with no price, and the
`available` branch of the business rule. -/
theorem c2_witness :
    validate_product
      { product_id := some "B08N5WRWNW", title := some "Widget", price := none,
        availability := some "in_stock", rating := none, seller := none } =
      (false, "In-stock item missing price") ∧
    validate_product
      { product_id := some "B08N5WRWNW", title := some "Widget", price := none,
        availability := some "out_of_stock", rating := none, seller := none } = (true, "OK") ∧
    (validate_product_availability (some "available") none).1 = false :=
  ⟨c2_in_stock_missing_price.2.1 "B08N5WRWNW" "Widget" (by decide) (by decide),
    c2_in_stock_missing_price.2.2 "B08N5WRWNW" "Widget" (by decide) (by decide),
    ((c2_in_stock_missing_price.1 "available" none).1).mpr (by decide)⟩

/-- C10.  Whenever `transform_product_record` produces a transformed
record for a raw record whose availability text contains "out of stock" or
"unavailable" (case-insensitively), the output price is absent — an
extracted price, even positive and in-bounds, is discarded rather than
carried into the transformed record. -/
theorem c10_out_of_stock_price_discarded (d : TIn) (nowIso : String) (out : TOut)
    (hres : transform_product_record d nowIso = .ok (some out))
    (hav : containsSub (pyLower (d.availability.getD "")).data "out of stock".data = true ∨
      containsSub (pyLower (d.availability.getD "")).data "unavailable".data = true) :
    out.price = none := by
  have hcond : (containsSub (pyLower (d.availability.getD "")).data "out of stock".data ||
      containsSub (pyLower (d.availability.getD "")).data "unavailable".data) = true := by
    rcases hav with h | h <;> simp [h]
  simp only [transform_product_record, hcond, if_true] at hres
  split at hres
  · exact absurd hres (by simp)
  · split at hres
    · exact absurd hres (by simp)
    · split at hres
      · exact absurd hres (by simp)
      · simp only [Except.ok.injEq, Option.some.injEq] at hres
        rw [← hres]

/-- C10 witness: the theorem applied to a concrete raw record carrying a
positive, in-bounds price of 500 and the availability text "Currently
unavailable.": the transformed record exists and its price is absent. -/
theorem c10_witness :
    ({ product_id := "B08N5WRWNW", title := "Widget", price := none, currency := "INR",
       availability := "out_of_stock", seller := "", rating := none,
       source_url := "https://amazon.in/dp/b08n5wrwnw", scraped_at := none,
       transformed_at := "T0", raw_id := none } : TOut).price = none :=
  c10_out_of_stock_price_discarded
    { product_id := some "b08n5wrwnw", asin := none, price := some (.num 500),
      price_text := none, title := some "Widget",
      availability := some "Currently unavailable.", currency := none, seller := none,
      rating := none, url := none, timestamp := none, extracted_at := none, raw_id := none }
    "T0" _ (by rfl) (Or.inr (by decide))

theorem retry_all_fail (o : ScrapeOracle) (h : ∀ n, o n = none) :
    ∀ k a m, m + 1 - a ≤ k → scrape_with_retry o a m = none := by
  intro k
  induction k with
  | zero =>
    intro a m hk
    rw [scrape_with_retry, dif_pos (by omega)]
  | succ k ih =>
    intro a m hk
    rw [scrape_with_retry]
    by_cases hm : m < a
    · rw [dif_pos hm]
    · rw [dif_neg hm, h a]
      exact ih (a + 1) m (by omega)

theorem smpGo_eq (oracle : String → ScrapeOracle) :
    ∀ (ids : List String) (res : List (String × Option String)), ids.Nodup →
      (∀ pid ∈ ids, res.any (fun p => p.1 == pid) = false) →
      smpGo oracle ids res =
        res ++ ids.map (fun pid => (pid, scrape_with_retry (oracle pid) 1 3)) := by
  intro ids
  induction ids with
  | nil => intro res _ _; simp [smpGo]
  | cons pid rest ih =>
    intro res hnodup hres
    rw [smpGo, dictInsert, if_neg (by rw [hres pid (List.mem_cons_self pid rest)]; simp)]
    rw [ih (res ++ [(pid, scrape_with_retry (oracle pid) 1 3)]) (List.Nodup.of_cons hnodup) ?_]
    · rw [List.map_cons, List.append_assoc]
      rfl
    · intro q hq
      rw [List.any_append]
      have h1 : res.any (fun p => p.1 == q) = false :=
        hres q (List.mem_cons_of_mem pid hq)
      have h2 : pid ≠ q := by
        intro hh
        subst hh
        exact (List.nodup_cons.mp hnodup).1 hq
      rw [h1]
      simp [h2]

/-- C7.  For a list of distinct identifiers, the batch fetch returns a map
with exactly one entry per supplied identifier in the supplied order; the
entry of each identifier is exactly the outcome of its own three-attempt
retry loop (so one identifier's failure cannot affect another identifier's
entry — the third conjunct makes the independence explicit); and an
identifier whose attempts all fail maps to `None`. -/
theorem c7_batch_fetch (oracle : String → ScrapeOracle) (ids : List String)
    (h : ids.Nodup) :
    ((scrape_multiple_products oracle ids).map Prod.fst = ids) ∧
      (∀ pid, pid ∈ ids →
        dlookup (scrape_multiple_products oracle ids) pid =
          some (scrape_with_retry (oracle pid) 1 3)) ∧
        (∀ (oracle2 : String → ScrapeOracle) pid, pid ∈ ids →
          (∀ n, oracle pid n = oracle2 pid n) →
          dlookup (scrape_multiple_products oracle ids) pid =
            dlookup (scrape_multiple_products oracle2 ids) pid) ∧
          (∀ pid, (∀ n, oracle pid n = none) → scrape_with_retry (oracle pid) 1 3 = none) := by
  have hmain : scrape_multiple_products oracle ids =
      ids.map (fun pid => (pid, scrape_with_retry (oracle pid) 1 3)) := by
    rw [scrape_multiple_products, smpGo_eq oracle ids [] h (by simp)]
    rfl
  refine ⟨?_, ?_, ?_, ?_⟩
  · rw [hmain, List.map_map]
    simp [Function.comp_def]
  · intro pid hpid
    rw [hmain]
    exact dlookup_map_fn ids _ pid hpid
  · intro oracle2 pid hpid hsame
    have hmain2 : scrape_multiple_products oracle2 ids =
        ids.map (fun pid => (pid, scrape_with_retry (oracle2 pid) 1 3)) := by
      rw [scrape_multiple_products, smpGo_eq oracle2 ids [] h (by simp)]
      rfl
    rw [hmain, hmain2, dlookup_map_fn ids _ pid hpid, dlookup_map_fn ids _ pid hpid]
    rw [funext hsame]
  · intro pid hfail
    exact retry_all_fail (oracle pid) hfail 3 1 3 (by omega)

/-- A concrete oracle for the C7 witness: the first identifier always
fails, the second succeeds on its second attempt. -/
def c7Oracle : String → ScrapeOracle := fun pid n =>
  if pid = "B000000002" ∧ n = 2 then some "<html>page</html>" else none

/-- C7 witness: the theorem applied to a concrete two-identifier batch in
which the first identifier's attempts all fail and the second succeeds on
its second attempt: the keys are in order, the failed identifier maps to
`None`, and the succeeding identifier still maps to its page. -/
theorem c7_witness :
    ((scrape_multiple_products c7Oracle ["B000000001", "B000000002"]).map Prod.fst =
        ["B000000001", "B000000002"]) ∧
      dlookup (scrape_multiple_products c7Oracle ["B000000001", "B000000002"]) "B000000001" =
        some (scrape_with_retry (c7Oracle "B000000001") 1 3) ∧
        scrape_with_retry (c7Oracle "B000000001") 1 3 = none :=
  have h := c7_batch_fetch c7Oracle ["B000000001", "B000000002"] (by decide)
  ⟨h.1, h.2.1 "B000000001" (by decide),
    h.2.2.2 "B000000001" (fun n => by rw [c7Oracle]; simp)⟩

/-- C3.  `validate_product_data` checks every field-level rule
independently and returns the full ordered list of violation messages: any
message produced by any one of the field rules appears in the returned
list, no matter which or how many other rules also fail (so two distinct
violated rules both contribute their reasons), and the record is valid iff
the list is empty. -/
theorem c3_all_violations_collected (r : VRecord) :
    (∀ e, (e ∈ requiredErrs r ∨ e ∈ asinErrs r ∨ e ∈ urlErrs r ∨ e ∈ titleErrs r ∨
        e ∈ currentPriceErrs r ∨ e ∈ originalPriceErrs r ∨ e ∈ discountErrs r ∨
          e ∈ ratingErrs r ∨ e ∈ reviewCountErrs r ∨ e ∈ timestampErrs r ∨
            e ∈ availabilityErrs r) → e ∈ (validate_product_data r).2) ∧
      ((validate_product_data r).1 = true ↔ (validate_product_data r).2 = []) := by
  constructor
  · intro e he
    simp only [validate_product_data, List.mem_append]
    tauto
  · simp only [validate_product_data]
    exact List.isEmpty_iff

/-- A concrete record violating two distinct field rules (identifier
format and rating bound) for the C3 witness. -/
def c3Record : VRecord :=
  { asin := .val "bad", url := .val "https://www.amazon.com/dp/B08N5WRWNW",
    title := .val "Widget", current_price := .absent, original_price := .absent,
    discount_percentage := .absent, rating := .val 7, review_count := .absent,
    timestamp := .val .tsDatetime, availability := .absent }

/-- C3 witness: a concrete record that violates two distinct field rules —
a malformed identifier and an out-of-bounds rating — produces both
messages in the returned list. -/
theorem c3_witness :
    "Invalid ASIN format: bad. Must be 10 alphanumeric characters." ∈
        (validate_product_data c3Record).2 ∧
      "Rating too high (7 > 5.0)" ∈ (validate_product_data c3Record).2 :=
  ⟨(c3_all_violations_collected c3Record).1 _ (Or.inr (Or.inl (by decide))),
    (c3_all_violations_collected c3Record).1 _
      (Or.inr (Or.inr (Or.inr (Or.inr (Or.inr (Or.inr (Or.inr (Or.inl (by decide)))))))))⟩

/-! ## Collapse lemmas for sanitize_string -/

theorem pySplitWs_ws_cons (c : Char) (t : List Char) (hc : c.isWhitespace = true) :
    pySplitWs (c :: t) = pySplitWs t := by
  conv_lhs => rw [pySplitWs.eq_def]
  simp [hc]

theorem pySplitWs_single (c : Char) (hc : c.isWhitespace = false) :
    pySplitWs [c] = [[c]] := by
  conv_lhs => rw [pySplitWs.eq_def]
  simp [hc]

theorem pySplitWs_cons_break (c d : Char) (t : List Char) (hc : c.isWhitespace = false)
    (hd : d.isWhitespace = true) : pySplitWs (c :: d :: t) = [c] :: pySplitWs (d :: t) := by
  conv_lhs => rw [pySplitWs.eq_def]
  simp [hc, hd]

theorem pySplitWs_cons_cont (c d : Char) (t : List Char) (hc : c.isWhitespace = false)
    (hd : d.isWhitespace = false) :
    pySplitWs (c :: d :: t) = consHead c (pySplitWs (d :: t)) := by
  conv_lhs => rw [pySplitWs.eq_def]
  simp [hc, hd]

theorem joinWs_single (w : List Char) : joinWs [w] = w := rfl

theorem joinWs_cons2 (w w2 : List Char) (ws : List (List Char)) :
    joinWs (w :: w2 :: ws) = w ++ ' ' :: joinWs (w2 :: ws) := rfl

theorem pySplitWs_good : ∀ (l w : List Char), w ∈ pySplitWs l →
    w ≠ [] ∧ ∀ c ∈ w, c.isWhitespace = false := by
  intro l
  induction l with
  | nil => intro w hw; simp [pySplitWs] at hw
  | cons c rest ih =>
    intro w hw
    by_cases hc : c.isWhitespace
    · rw [pySplitWs_ws_cons c rest hc] at hw
      exact ih w hw
    · rw [Bool.not_eq_true] at hc
      cases rest with
      | nil =>
        rw [pySplitWs_single c hc] at hw
        simp at hw
        subst hw
        refine ⟨by simp, ?_⟩
        intro x hx
        simp at hx
        subst hx
        exact hc
      | cons d t =>
        by_cases hd : d.isWhitespace
        · rw [pySplitWs_cons_break c d t hc hd] at hw
          rcases List.mem_cons.mp hw with h | h
          · subst h
            refine ⟨by simp, ?_⟩
            intro x hx
            simp at hx
            subst hx
            exact hc
          · exact ih w h
        · rw [Bool.not_eq_true] at hd
          rw [pySplitWs_cons_cont c d t hc hd] at hw
          cases hsp : pySplitWs (d :: t) with
          | nil =>
            rw [hsp, consHead] at hw
            simp at hw
            subst hw
            refine ⟨by simp, ?_⟩
            intro x hx
            simp at hx
            subst hx
            exact hc
          | cons w1 ws1 =>
            rw [hsp, consHead] at hw
            rcases List.mem_cons.mp hw with h | h
            · subst h
              have h1 := ih w1 (by rw [hsp]; exact List.mem_cons_self _ _)
              refine ⟨by simp, ?_⟩
              intro x hx
              rcases List.mem_cons.mp hx with h2 | h2
              · subst h2; exact hc
              · exact h1.2 x h2
            · exact ih w (by rw [hsp]; exact List.mem_cons_of_mem _ h)

theorem pySplitWs_word_append : ∀ (w t : List Char), w ≠ [] →
    (∀ c ∈ w, c.isWhitespace = false) →
    (t = [] ∨ ∃ d t2, t = d :: t2 ∧ d.isWhitespace = true) →
    pySplitWs (w ++ t) = w :: pySplitWs t := by
  intro w
  induction w with
  | nil => intro t h _ _; exact absurd rfl h
  | cons c w2 ih =>
    intro t _ hnw ht
    have hc : c.isWhitespace = false := hnw c (List.mem_cons_self c w2)
    cases w2 with
    | nil =>
      simp only [List.cons_append, List.nil_append]
      rcases ht with rfl | ⟨d, t2, rfl, hd⟩
      · rw [pySplitWs_single c hc]
        rfl
      · rw [pySplitWs_cons_break c d t2 hc hd]
    | cons c2 w3 =>
      have hc2 : c2.isWhitespace = false := hnw c2 (by simp)
      have hrec : pySplitWs ((c2 :: w3) ++ t) = (c2 :: w3) :: pySplitWs t :=
        ih t (by simp) (fun x hx => hnw x (List.mem_cons_of_mem c hx)) ht
      rw [List.cons_append] at hrec ⊢
      rw [List.cons_append]
      rw [pySplitWs_cons_cont c c2 (w3 ++ t) hc hc2, hrec, consHead]

theorem pySplitWs_joinWs : ∀ (ws : List (List Char)),
    (∀ w ∈ ws, w ≠ [] ∧ ∀ c ∈ w, c.isWhitespace = false) →
    pySplitWs (joinWs ws) = ws := by
  intro ws
  induction ws with
  | nil => intro _; rfl
  | cons w ws2 ih =>
    intro hgood
    have h := hgood w (List.mem_cons_self w ws2)
    cases ws2 with
    | nil =>
      rw [joinWs_single]
      have h2 := pySplitWs_word_append w [] h.1 h.2 (Or.inl rfl)
      rw [List.append_nil] at h2
      rw [h2]
      rfl
    | cons w2 ws3 =>
      rw [joinWs_cons2]
      rw [pySplitWs_word_append w (' ' :: joinWs (w2 :: ws3)) h.1 h.2
        (Or.inr ⟨' ', joinWs (w2 :: ws3), rfl, by decide⟩)]
      rw [pySplitWs_ws_cons ' ' (joinWs (w2 :: ws3)) (by decide)]
      rw [ih (fun x hx => hgood x (List.mem_cons_of_mem w hx))]

theorem collapseWs_idem (l : List Char) : collapseWs (collapseWs l) = collapseWs l := by
  rw [collapseWs, collapseWs, pySplitWs_joinWs (pySplitWs l) (fun w hw => pySplitWs_good l w hw)]

theorem mem_joinWs : ∀ (ws : List (List Char)),
    (∀ w ∈ ws, w ≠ [] ∧ ∀ c ∈ w, c.isWhitespace = false) →
    ∀ c ∈ joinWs ws, c = ' ' ∨ c.isWhitespace = false := by
  intro ws
  induction ws with
  | nil => intro _ c hc; simp [joinWs] at hc
  | cons w ws2 ih =>
    intro hgood c hc
    cases ws2 with
    | nil =>
      rw [joinWs_single] at hc
      exact Or.inr ((hgood w (by simp)).2 c hc)
    | cons w2 ws3 =>
      rw [joinWs_cons2] at hc
      rcases List.mem_append.mp hc with h | h
      · exact Or.inr ((hgood w (by simp)).2 c h)
      · rcases List.mem_cons.mp h with h2 | h2
        · exact Or.inl h2
        · exact ih (fun x hx => hgood x (List.mem_cons_of_mem w hx)) c h2

theorem pySplitWs_word (w : List Char) (h1 : w ≠ [])
    (h2 : ∀ c ∈ w, c.isWhitespace = false) : pySplitWs w = [w] := by
  have h := pySplitWs_word_append w [] h1 h2 (Or.inl rfl)
  rw [List.append_nil] at h
  rw [h]
  rfl

theorem collapseWs_take : ∀ (ws : List (List Char)),
    (∀ w ∈ ws, w ≠ [] ∧ ∀ c ∈ w, c.isWhitespace = false) →
    ∀ n, (joinWs ws).take n ≠ [] →
    (∀ c, ((joinWs ws).take n).getLast? = some c → c.isWhitespace = false) →
    collapseWs ((joinWs ws).take n) = (joinWs ws).take n := by
  intro ws
  induction ws with
  | nil => intro _ n hne _; simp [joinWs] at hne
  | cons w ws2 ih =>
    intro hgood n hne hlast
    have hw := hgood w (List.mem_cons_self w ws2)
    cases ws2 with
    | nil =>
      rw [joinWs_single] at hne hlast ⊢
      have hsub : ∀ c ∈ w.take n, c.isWhitespace = false :=
        fun c hc => hw.2 c (List.take_subset n w hc)
      rw [collapseWs, pySplitWs_word (w.take n) hne hsub]
      rfl
    | cons w2 ws3 =>
      rw [joinWs_cons2] at hne hlast ⊢
      rw [List.take_append_eq_append_take] at hne hlast ⊢
      by_cases hn : n ≤ w.length
      · have h0 : n - w.length = 0 := by omega
        rw [h0, List.take_zero, List.append_nil] at hne hlast ⊢
        have hsub : ∀ c ∈ w.take n, c.isWhitespace = false :=
          fun c hc => hw.2 c (List.take_subset n w hc)
        rw [collapseWs, pySplitWs_word (w.take n) hne hsub]
        rfl
      · have hwn : w.take n = w := List.take_of_length_le (by omega)
        obtain ⟨k, hk⟩ : ∃ k, n - w.length = k + 1 := ⟨n - w.length - 1, by omega⟩
        rw [hwn, hk, List.take_succ_cons] at hne hlast ⊢
        by_cases hr2e : (joinWs (w2 :: ws3)).take k = []
        · exfalso
          rw [hr2e] at hlast
          exact absurd (hlast ' ' (by rw [List.getLast?_concat])) (by decide)
        · have hlast2 : ∀ c, ((joinWs (w2 :: ws3)).take k).getLast? = some c →
              c.isWhitespace = false := by
            intro c hc
            apply hlast c
            rw [List.getLast?_append_cons w ' ' ((joinWs (w2 :: ws3)).take k)]
            cases hr2x : (joinWs (w2 :: ws3)).take k with
            | nil => exact absurd hr2x hr2e
            | cons y ys =>
              rw [List.getLast?_cons_cons, ← hr2x, hc]
          have hih := ih (fun x hx => hgood x (List.mem_cons_of_mem w hx)) k hr2e hlast2
          have hsplit : pySplitWs (w ++ ' ' :: (joinWs (w2 :: ws3)).take k) =
              w :: pySplitWs ((joinWs (w2 :: ws3)).take k) := by
            rw [pySplitWs_word_append w (' ' :: (joinWs (w2 :: ws3)).take k) hw.1 hw.2
              (Or.inr ⟨' ', (joinWs (w2 :: ws3)).take k, rfl, by decide⟩)]
            rw [pySplitWs_ws_cons ' ' ((joinWs (w2 :: ws3)).take k) (by decide)]
          have hne2 : pySplitWs ((joinWs (w2 :: ws3)).take k) ≠ [] := by
            intro hh
            rw [collapseWs, hh] at hih
            exact hr2e (by rw [← hih]; rfl)
          rw [collapseWs, hsplit]
          cases hsp : pySplitWs ((joinWs (w2 :: ws3)).take k) with
          | nil => exact absurd hsp hne2
          | cons y ys =>
            rw [joinWs_cons2]
            rw [collapseWs, hsp] at hih
            rw [hih]

theorem collapseWs_eq_joinWs (l : List Char) : collapseWs l = joinWs (pySplitWs l) := rfl

theorem sanitize_string_idem (s : String)
    (hcond : ((collapseWs s.data).take 500).getLast? ≠ some ' ') :
    sanitize_string (sanitize_string (some s)) = sanitize_string (some s) := by
  by_cases hlen : (collapseWs s.data).length > 500
  · have h1 : sanitize_string (some s) = some ⟨(collapseWs s.data).take 500⟩ := by
      rw [sanitize_string]
      simp only [if_pos hlen]
    have hlast : ∀ c, ((collapseWs s.data).take 500).getLast? = some c →
        c.isWhitespace = false := by
      intro c hc
      have hmem : c ∈ collapseWs s.data :=
        List.take_subset _ _ (List.mem_of_getLast?_eq_some hc)
      rcases mem_joinWs (pySplitWs s.data) (fun x hx => pySplitWs_good s.data x hx) c
          (by rw [← collapseWs_eq_joinWs]; exact hmem) with h | h
      · subst h
        exact absurd hc hcond
      · exact h
    have hne : (collapseWs s.data).take 500 ≠ [] := by
      intro hh
      have h0 : ((collapseWs s.data).take 500).length = 0 := by rw [hh]; rfl
      rw [List.length_take] at h0
      omega
    have h2 : collapseWs ((collapseWs s.data).take 500) = (collapseWs s.data).take 500 := by
      have h3 := collapseWs_take (pySplitWs s.data)
        (fun x hx => pySplitWs_good s.data x hx) 500
      rw [← collapseWs_eq_joinWs] at h3
      exact h3 hne hlast
    have hlen2 : ((collapseWs s.data).take 500).length = 500 := by
      rw [List.length_take]
      omega
    rw [h1, sanitize_string]
    have hdata : (String.mk ((collapseWs s.data).take 500)).data =
        (collapseWs s.data).take 500 := rfl
    rw [hdata, h2, if_neg (by omega)]
  · have h1 : sanitize_string (some s) = some ⟨collapseWs s.data⟩ := by
      rw [sanitize_string]
      simp only [if_neg hlen]
    have h2 : collapseWs (collapseWs s.data) = collapseWs s.data := collapseWs_idem s.data
    have hlen2 : ¬ (collapseWs (collapseWs s.data)).length > 500 := by rw [h2]; exact hlen
    rw [h1, sanitize_string]
    have hdata : (String.mk (collapseWs s.data)).data = collapseWs s.data := rfl
    rw [hdata, h2, if_neg (by rw [h2] at hlen2; exact hlen2)]

/-! ## Strip and uppercase lemmas -/

theorem dropWhile_idem (p : Char → Bool) (l : List Char) :
    (l.dropWhile p).dropWhile p = l.dropWhile p := by
  induction l with
  | nil => rfl
  | cons c t ih =>
    rw [List.dropWhile_cons]
    by_cases h : p c = true
    · rw [if_pos h]
      exact ih
    · rw [if_neg h, List.dropWhile_cons, if_neg h]

theorem exists_prepend_dropWhile (p : Char → Bool) (l : List Char) :
    ∃ t, t ++ l.dropWhile p = l := by
  induction l with
  | nil => exact ⟨[], rfl⟩
  | cons c t ih =>
    rw [List.dropWhile_cons]
    by_cases h : p c = true
    · obtain ⟨u, hu⟩ := ih
      rw [if_pos h]
      exact ⟨c :: u, by rw [List.cons_append, hu]⟩
    · rw [if_neg h]
      exact ⟨[], rfl⟩

theorem head?_rstripList (m : List Char) (h : rstripList m ≠ []) :
    (rstripList m).head? = m.head? := by
  obtain ⟨t, ht⟩ := exists_prepend_dropWhile Char.isWhitespace m.reverse
  have hm : m = rstripList m ++ t.reverse := by
    rw [rstripList]
    calc m = m.reverse.reverse := (List.reverse_reverse m).symm
    _ = (t ++ m.reverse.dropWhile Char.isWhitespace).reverse := by rw [ht]
    _ = (m.reverse.dropWhile Char.isWhitespace).reverse ++ t.reverse := by
        rw [List.reverse_append]
  conv_rhs => rw [hm]
  cases hx : rstripList m with
  | nil => exact absurd hx h
  | cons y ys =>
    rw [List.cons_append]
    rfl

theorem lstrip_head_false (l : List Char) :
    ∀ c, (lstripList l).head? = some c → c.isWhitespace = false := by
  induction l with
  | nil => intro c hc; simp [lstripList] at hc
  | cons d t ih =>
    intro c hc
    rw [lstripList, List.dropWhile_cons] at hc
    by_cases hd : d.isWhitespace = true
    · rw [if_pos hd] at hc
      exact ih c hc
    · rw [if_neg hd] at hc
      simp at hc
      rw [← hc]
      simpa using hd

theorem dropWhile_of_head_false (p : Char → Bool) (l : List Char)
    (h : ∀ c, l.head? = some c → p c = false) : l.dropWhile p = l := by
  cases l with
  | nil => rfl
  | cons c t =>
    rw [List.dropWhile_cons, if_neg]
    rw [h c rfl]
    simp

theorem stripList_idem (l : List Char) : stripList (stripList l) = stripList l := by
  by_cases hs : stripList l = []
  · rw [hs]; rfl
  · have hrev : (stripList l).reverse = (lstripList l).reverse.dropWhile Char.isWhitespace := by
      rw [stripList, rstripList, List.reverse_reverse]
    have hb : rstripList (stripList l) = stripList l := by
      rw [rstripList, hrev, dropWhile_idem, ← hrev, List.reverse_reverse]
    have ha : lstripList (stripList l) = stripList l := by
      apply dropWhile_of_head_false
      intro c hc
      have h1 : (stripList l).head? = (lstripList l).head? := by
        rw [stripList] at hs ⊢
        exact head?_rstripList (lstripList l) hs
      rw [h1] at hc
      exact lstrip_head_false l c hc
    calc stripList (stripList l) = rstripList (lstripList (stripList l)) := rfl
    _ = rstripList (stripList l) := by rw [ha]
    _ = stripList l := hb

theorem stripList_subset (l : List Char) (c : Char) (hc : c ∈ stripList l) : c ∈ l := by
  have h1 : c ∈ lstripList l := by
    rw [stripList, rstripList] at hc
    rw [List.mem_reverse] at hc
    have h2 : (List.dropWhile Char.isWhitespace ((lstripList l).reverse)).Sublist
        ((lstripList l).reverse) := List.dropWhile_sublist Char.isWhitespace
    have h3 := h2.subset hc
    rwa [List.mem_reverse] at h3
  have h4 : (List.dropWhile Char.isWhitespace l).Sublist l :=
    List.dropWhile_sublist Char.isWhitespace
  exact h4.subset h1

theorem data_mk (l : List Char) : (String.mk l).data = l := rfl

theorem pyUpperChar_cases (c : Char) :
    pyUpperChar c = c ∨ pyUpperChar c ∈ "ABCDEFGHIJKLMNOPQRSTUVWXYZ".data := by
  rw [pyUpperChar]
  by_cases h1 : (c == 'a') = true
  · rw [if_pos h1]
    exact Or.inr (by decide)
  · rw [if_neg h1]
    by_cases h2 : (c == 'b') = true
    · rw [if_pos h2]
      exact Or.inr (by decide)
    · rw [if_neg h2]
      by_cases h3 : (c == 'c') = true
      · rw [if_pos h3]
        exact Or.inr (by decide)
      · rw [if_neg h3]
        by_cases h4 : (c == 'd') = true
        · rw [if_pos h4]
          exact Or.inr (by decide)
        · rw [if_neg h4]
          by_cases h5 : (c == 'e') = true
          · rw [if_pos h5]
            exact Or.inr (by decide)
          · rw [if_neg h5]
            by_cases h6 : (c == 'f') = true
            · rw [if_pos h6]
              exact Or.inr (by decide)
            · rw [if_neg h6]
              by_cases h7 : (c == 'g') = true
              · rw [if_pos h7]
                exact Or.inr (by decide)
              · rw [if_neg h7]
                by_cases h8 : (c == 'h') = true
                · rw [if_pos h8]
                  exact Or.inr (by decide)
                · rw [if_neg h8]
                  by_cases h9 : (c == 'i') = true
                  · rw [if_pos h9]
                    exact Or.inr (by decide)
                  · rw [if_neg h9]
                    by_cases h10 : (c == 'j') = true
                    · rw [if_pos h10]
                      exact Or.inr (by decide)
                    · rw [if_neg h10]
                      by_cases h11 : (c == 'k') = true
                      · rw [if_pos h11]
                        exact Or.inr (by decide)
                      · rw [if_neg h11]
                        by_cases h12 : (c == 'l') = true
                        · rw [if_pos h12]
                          exact Or.inr (by decide)
                        · rw [if_neg h12]
                          by_cases h13 : (c == 'm') = true
                          · rw [if_pos h13]
                            exact Or.inr (by decide)
                          · rw [if_neg h13]
                            by_cases h14 : (c == 'n') = true
                            · rw [if_pos h14]
                              exact Or.inr (by decide)
                            · rw [if_neg h14]
                              by_cases h15 : (c == 'o') = true
                              · rw [if_pos h15]
                                exact Or.inr (by decide)
                              · rw [if_neg h15]
                                by_cases h16 : (c == 'p') = true
                                · rw [if_pos h16]
                                  exact Or.inr (by decide)
                                · rw [if_neg h16]
                                  by_cases h17 : (c == 'q') = true
                                  · rw [if_pos h17]
                                    exact Or.inr (by decide)
                                  · rw [if_neg h17]
                                    by_cases h18 : (c == 'r') = true
                                    · rw [if_pos h18]
                                      exact Or.inr (by decide)
                                    · rw [if_neg h18]
                                      by_cases h19 : (c == 's') = true
                                      · rw [if_pos h19]
                                        exact Or.inr (by decide)
                                      · rw [if_neg h19]
                                        by_cases h20 : (c == 't') = true
                                        · rw [if_pos h20]
                                          exact Or.inr (by decide)
                                        · rw [if_neg h20]
                                          by_cases h21 : (c == 'u') = true
                                          · rw [if_pos h21]
                                            exact Or.inr (by decide)
                                          · rw [if_neg h21]
                                            by_cases h22 : (c == 'v') = true
                                            · rw [if_pos h22]
                                              exact Or.inr (by decide)
                                            · rw [if_neg h22]
                                              by_cases h23 : (c == 'w') = true
                                              · rw [if_pos h23]
                                                exact Or.inr (by decide)
                                              · rw [if_neg h23]
                                                by_cases h24 : (c == 'x') = true
                                                · rw [if_pos h24]
                                                  exact Or.inr (by decide)
                                                · rw [if_neg h24]
                                                  by_cases h25 : (c == 'y') = true
                                                  · rw [if_pos h25]
                                                    exact Or.inr (by decide)
                                                  · rw [if_neg h25]
                                                    by_cases h26 : (c == 'z') = true
                                                    · rw [if_pos h26]
                                                      exact Or.inr (by decide)
                                                    · rw [if_neg h26]
                                                      exact Or.inl rfl

theorem pyUpperChar_fixed_upper :
    ∀ u ∈ "ABCDEFGHIJKLMNOPQRSTUVWXYZ".data, pyUpperChar u = u := by decide

theorem pyUpperChar_idem (c : Char) : pyUpperChar (pyUpperChar c) = pyUpperChar c := by
  rcases pyUpperChar_cases c with h | h
  · rw [h]
    exact h
  · exact pyUpperChar_fixed_upper (pyUpperChar c) h

theorem map_id_of_mem (l : List Char) (f : Char → Char) (h : ∀ c ∈ l, f c = c) :
    l.map f = l := by
  induction l with
  | nil => rfl
  | cons c t ih =>
    rw [List.map_cons, h c (List.mem_cons_self c t),
      ih (fun x hx => h x (List.mem_cons_of_mem c hx))]

theorem upper_strip_idem (pid : String) :
    pyStrip (pyUpper (pyStrip (pyUpper pid))) = pyStrip (pyUpper pid) := by
  have hmap : (stripList (pid.data.map pyUpperChar)).map pyUpperChar =
      stripList (pid.data.map pyUpperChar) := by
    apply map_id_of_mem
    intro c hc
    obtain ⟨x, _, hx⟩ := List.mem_map.mp (stripList_subset _ c hc)
    rw [← hx, pyUpperChar_idem]
  simp only [pyStrip, pyUpper, data_mk]
  congr 1
  rw [hmap, stripList_idem]

/-! ## Rounding lemmas -/

theorem roundHalfEven_intCast (k : ℤ) : roundHalfEven (k : ℚ) = k := by
  rw [roundHalfEven]
  rw [Int.floor_intCast, sub_self, if_pos (by norm_num)]

theorem roundHalfEven_nonneg (q : ℚ) (h : 0 ≤ q) : 0 ≤ roundHalfEven q := by
  rw [roundHalfEven]
  have hf : (0 : ℤ) ≤ ⌊q⌋ := Int.floor_nonneg.mpr h
  split_ifs <;> omega

theorem roundHalfEven_le (q : ℚ) (c : ℤ) (h : q ≤ (c : ℚ)) : roundHalfEven q ≤ c := by
  have h1 : ⌊q⌋ ≤ c := by
    have h2 := Int.floor_le_floor h
    rwa [Int.floor_intCast] at h2
  rw [roundHalfEven]
  by_cases h2 : ⌊q⌋ = c
  · have hq : q = (c : ℚ) := le_antisymm h (by rw [← h2]; exact Int.floor_le q)
    rw [if_pos]
    · exact h1
    · rw [hq, Int.floor_intCast, sub_self]
      norm_num
  · have h3 : ⌊q⌋ + 1 ≤ c := by omega
    split_ifs <;> omega

theorem pyRound1_int_div (m : ℤ) : pyRound1 ((m : ℚ) / 10) = (m : ℚ) / 10 := by
  rw [pyRound1, show ((m : ℚ) / 10 * 10) = (m : ℚ) from by field_simp, roundHalfEven_intCast]

theorem pyRound1_nonneg (q : ℚ) (h : 0 ≤ q) : 0 ≤ pyRound1 q := by
  rw [pyRound1]
  have h1 := roundHalfEven_nonneg (q * 10) (by positivity)
  have h2 : (0 : ℚ) ≤ (roundHalfEven (q * 10) : ℚ) := by exact_mod_cast h1
  positivity

theorem pyRound1_le5 (q : ℚ) (h : q ≤ 5) : pyRound1 q ≤ 5 := by
  rw [pyRound1]
  have h1 : q * 10 ≤ ((50 : ℤ) : ℚ) := by push_cast; linarith
  have h2 := roundHalfEven_le (q * 10) 50 h1
  have h3 : ((roundHalfEven (q * 10)) : ℚ) ≤ 50 := by exact_mod_cast h2
  linarith

/-! ## Idempotence of the individual sanitizers -/

theorem sanitize_price_idem (p : Option PVal) :
    sanitize_price (sanitize_price p) = sanitize_price p := by
  match p with
  | none => rfl
  | some (.num q) => rfl
  | some (.str s) =>
    rw [sanitize_price]
    by_cases h : decValid (s.data.filter (fun c => c.isDigit || c == '.')) = true
    · rw [if_pos h]
      rfl
    · rw [if_neg h]
      rfl

theorem pyRound1_zero : pyRound1 (0 : ℚ) = 0 := by
  rw [show (0 : ℚ) = ((0 : ℤ) : ℚ) / 10 from by norm_num, pyRound1_int_div]

theorem pyRound1_five : pyRound1 (5 : ℚ) = 5 := by
  rw [show (5 : ℚ) = ((50 : ℤ) : ℚ) / 10 from by norm_num, pyRound1_int_div]

theorem sanitize_rating_num (x : ℚ) : sanitize_rating (some (.num x)) =
    if x < 0 then some (.num 0) else if x > 5 then some (.num 5)
      else some (.num (pyRound1 x)) := rfl

theorem sanitize_rating_idem (r : Option PVal) :
    sanitize_rating (sanitize_rating r) = sanitize_rating r := by
  match r with
  | none => rfl
  | some v =>
    rw [sanitize_rating]
    cases hf : pyFloat v with
    | none => rfl
    | some q =>
      show sanitize_rating (if q < 0 then some (PVal.num 0) else if q > 5 then some (PVal.num 5)
          else some (PVal.num (pyRound1 q))) =
        (if q < 0 then some (PVal.num 0) else if q > 5 then some (PVal.num 5)
          else some (PVal.num (pyRound1 q)))
      by_cases h0 : q < 0
      · rw [if_pos h0, sanitize_rating_num]
        rw [if_neg (by norm_num : ¬ (0 : ℚ) < 0), if_neg (by norm_num : ¬ (0 : ℚ) > 5)]
        rw [pyRound1_zero]
      · by_cases h5 : q > 5
        · rw [if_neg h0, if_pos h5, sanitize_rating_num]
          rw [if_neg (by norm_num : ¬ (5 : ℚ) < 0), if_neg (by norm_num : ¬ (5 : ℚ) > 5)]
          rw [pyRound1_five]
        · rw [if_neg h0, if_neg h5, sanitize_rating_num]
          rw [if_neg (not_lt.mpr (pyRound1_nonneg q (not_lt.mp h0)))]
          rw [if_neg (not_lt.mpr (pyRound1_le5 q (not_lt.mp h5)))]
          rw [show pyRound1 q = ((roundHalfEven (q * 10) : ℤ) : ℚ) / 10 from rfl,
            pyRound1_int_div]

/-- C5 amended.  Sanitization is idempotent except at one corner:
truncation that cuts immediately after a space.  For every record whose
string fields (title, seller, availability), after whitespace collapsing,
either fit in the 500-character cap or have a non-space character at the
truncation boundary, `sanitize_product_data (sanitize_product_data d) =
sanitize_product_data d`; the price, rating and identifier passes are
idempotent unconditionally.  When truncation leaves a trailing space, the
second pass collapses it away and idempotence fails (see the
counterexample). -/
theorem c5_sanitize_idempotent (d : SDict)
    (ht : ∀ s, d.title = some s → ((collapseWs s.data).take 500).getLast? ≠ some ' ')
    (hs : ∀ s, d.seller = some s → ((collapseWs s.data).take 500).getLast? ≠ some ' ')
    (ha : ∀ s, d.availability = some s → ((collapseWs s.data).take 500).getLast? ≠ some ' ') :
    sanitize_product_data (sanitize_product_data d) = sanitize_product_data d := by
  simp only [sanitize_product_data, SDict.mk.injEq]
  refine ⟨?_, ?_, ?_, sanitize_price_idem d.price, sanitize_rating_idem d.rating, ?_⟩
  · cases hx : d.title with
    | none => rfl
    | some s => exact sanitize_string_idem s (ht s hx)
  · cases hx : d.seller with
    | none => rfl
    | some s => exact sanitize_string_idem s (hs s hx)
  · cases hx : d.availability with
    | none => rfl
    | some s => exact sanitize_string_idem s (ha s hx)
  · cases hx : d.product_id with
    | none => rfl
    | some pid =>
      by_cases hp : pid = ""
      · simp only [if_pos hp]
      · simp only [if_neg hp]
        by_cases hu : pyStrip (pyUpper pid) = ""
        · simp only [if_pos hu]
        · simp only [if_neg hu, upper_strip_idem]

/-- A 502-character title whose whitespace-collapsed form has a space at
the 500-character truncation boundary: 499 copies of 'a', a space, then
"bb". -/
def c5BadTitle : String := ⟨List.replicate 499 'a' ++ [' ', 'b', 'b']⟩

/-- The record refuting C5 as stated. -/
def c5BadRecord : SDict :=
  { title := some c5BadTitle, seller := none, availability := none, price := none,
    rating := none, product_id := none }

set_option maxRecDepth 8000 in
/-- C5 counterexample.  Sanitizing `c5BadRecord` once truncates the
collapsed 502-character title to 500 characters ending in a space; the
second sanitization collapses that trailing space away, producing a
499-character title — so `sanitize(sanitize(x)) ≠ sanitize(x)`. -/
theorem c5_counterexample_truncation_at_space :
    sanitize_product_data (sanitize_product_data c5BadRecord) ≠
      sanitize_product_data c5BadRecord := by decide

/-- A record exercising every sanitizer pass for the C5 witness. -/
def c5Rec1 : SDict :=
  { title := some "  Hello   World  ", seller := some " Some Seller ",
    availability := some "In Stock", price := some (.str "₹1,234.56"),
    rating := some (.num 4), product_id := some " b08n5wrwnw " }

/-- C5 witness: the amended idempotence theorem applied at a concrete
record with collapsible whitespace in every string field. -/
theorem c5_witness :
    sanitize_product_data (sanitize_product_data c5Rec1) = sanitize_product_data c5Rec1 :=
  c5_sanitize_idempotent c5Rec1
    (fun _ hsx => by cases Option.some.inj hsx; decide)
    (fun _ hsx => by cases Option.some.inj hsx; decide)
    (fun _ hsx => by cases Option.some.inj hsx; decide)
